import Mathlib

/-!
# Tapify game-state engine: a shallow embedding

This file embeds the game mechanics of `Tapify.py` (energy regeneration,
tap admission control, boosts, streaks, leaderboard aggregation) as Lean
definitions and proves the specification's claims about them.

Modelling conventions:
* Database timestamps (`db_now()`) are integer seconds (`Int`); calendar
  dates (`db_date_utc()`) are integer day numbers, derived by flooring a
  timestamp by 86400 seconds.
* The monotonic clock used by the rate limiter (`time.monotonic()`) is a
  rational number of seconds (`Rat`), independent of the database clock.
* Row fields that the source reads with Python's `x or default` idiom
  (falsy `None`/`0` replaced by the default) are `Option Int` read through
  `orDefault`, which maps `none` and `some 0` to the default.
* Python's floor division `//` is `Int` division `/` (Euclidean division
  agrees with floor division whenever the divisor is positive, which holds
  at every division site: the divisor is `max 1 regen_rate_seconds`).
* The per-account replay-nonce set `_recent_nonces[chat_id]` is a
  duplicate-free `List String`; `list(s)` enumerates a Python set in an
  arbitrary order.  The tap handler's trim uses the model's list order,
  which is one admissible enumeration among many; theorems about the
  trim quantify over the enumeration order, and no theorem relies on
  where a newly added nonce lands in it — retention after a tap is only
  asserted when the cache has not overflowed, in which case the trim is
  a no-op under every enumeration.
-/

namespace Tapify

/-- Python `x or default` on an optional integer column: `None` and `0` are
falsy, so both are replaced by the default. -/
def orDefault (x : Option Int) (d : Int) : Int :=
  match x with
  | none => d
  | some v => if v = 0 then d else v

/-- A `game_users` row, with the columns the engine reads and writes.
Timestamp columns are integer seconds; `last_streak_at` is a day number. -/
structure GameUser where
  coins : Option Int := none
  energy : Option Int := none
  max_energy : Option Int := none
  energy_updated_at : Option Int := none
  multitap_until : Option Int := none
  autotap_until : Option Int := none
  regen_rate_seconds : Option Int := none
  last_tap_at : Option Int := none
  daily_streak : Option Int := none
  last_streak_at : Option Int := none
deriving DecidableEq, Repr

/-- A `game_taps` row for one account: `(ts, delta, nonce)`. -/
structure TapEvent where
  ts : Int
  delta : Int
  nonce : String
deriving DecidableEq, Repr

/-- `db_date_utc()`: the UTC calendar day of a timestamp, as a day number
(floor of seconds by 86400). -/
def dateOf (t : Int) : Int := t / 86400

/-- `MAX_TAPS_PER_SEC = 20`. -/
def MAX_TAPS_PER_SEC : Nat := 20

/-- `RATE_WINDOW_SEC = 1.0`. -/
def RATE_WINDOW_SEC : Rat := 1

/-- `compute_energy(user_row)`: energy regeneration.  Reads
`max_energy or 500`, `regen_rate_seconds or 3`, `energy or 0` and the
checkpoint `energy_updated_at` (missing checkpoint falls back to `now`);
`elapsed = now - last`, `regen = elapsed // max(1, regen_rate_seconds)`,
`energy = min(max_energy, stored_energy + regen)`; if `regen > 0` the
checkpoint advances by `regen * regen_rate_seconds`. -/
def compute_energy (user_row : GameUser) (now : Int) : Int × Int :=
  let max_energy := orDefault user_row.max_energy 500
  let regen_rate_seconds := orDefault user_row.regen_rate_seconds 3
  let last := user_row.energy_updated_at.getD now
  let stored_energy := orDefault user_row.energy 0
  let elapsed := now - last
  let regen := elapsed / max 1 regen_rate_seconds
  let energy := min max_energy (stored_energy + regen)
  let last' := if regen > 0 then last + regen * regen_rate_seconds else last
  (energy, last')

/-- `streak_update(gu, tapped_today)` with the current UTC day passed
explicitly (the source reads it from the clock). -/
def streak_update (gu : GameUser) (tapped_today : Bool) (today : Int) :
    Int × Int :=
  let last_date := gu.last_streak_at
  let streak := orDefault gu.daily_streak 0
  if !tapped_today then
    (streak, last_date.getD today)
  else if last_date = some (today - 1) then
    (streak + 1, today)
  else if last_date = some today then
    (streak, today)
  else
    (1, today)

/-- `boost_multiplier(gu)`: starts at 1; each of `multitap_until` and
`autotap_until` that lies strictly after `now` raises the multiplier to
`max mult 2`. -/
def boost_multiplier (gu : GameUser) (now : Int) : Int :=
  let mult : Int := 1
  let mult := match gu.multitap_until with
    | some mt => if mt > now then max mult 2 else mult
    | none => mult
  let mult := match gu.autotap_until with
    | some a => if a > now then max mult 2 else mult
    | none => mult
  mult

/-- `activate_boost(chat_id, boost)`: returns the `(ok, message)` pair and
the updated row (unchanged on every failing path). -/
def activate_boost (gu : GameUser) (boost : String) (now : Int) :
    (Bool × String) × GameUser :=
  let coins := orDefault gu.coins 0
  if boost = "multitap" then
    if coins < 1000 then ((false, "Not enough coins"), gu)
    else ((true, "multitap activated!"),
      { gu with coins := some (coins - 1000),
                multitap_until := some (now + 15 * 60) })
  else if boost = "autotap" then
    if coins < 3000 then ((false, "Not enough coins"), gu)
    else ((true, "autotap activated!"),
      { gu with coins := some (coins - 3000),
                autotap_until := some (now + 10 * 60) })
  else if boost = "maxenergy" then
    -- one-time upgrade (comment in the source; nothing enforces it)
    if coins < 2500 then ((false, "Not enough coins"), gu)
    else ((true, "Max energy increased by +100!"),
      { gu with coins := some (coins - 2500),
                max_energy := some (orDefault gu.max_energy 500 + 100) })
  else ((false, "Unknown boost"), gu)

/-- `can_tap_now(chat_id)`: evicts window entries older than
`RATE_WINDOW_SEC` from the front of the per-account deque, rejects when
`MAX_TAPS_PER_SEC` entries remain, otherwise records `now`.  Returns the
decision together with the mutated deque.  (The deque's `maxlen = 60`
can never trigger: the window length never exceeds 20.) -/
def can_tap_now (dq : List Rat) (now : Rat) : Bool × List Rat :=
  let dq := dq.dropWhile (fun t0 => now - t0 > RATE_WINDOW_SEC)
  if MAX_TAPS_PER_SEC ≤ dq.length then (false, dq)
  else (true, dq ++ [now])

/-- `_clean_old_nonces(chat_id)` applied to one enumeration `list(s)` of
the per-account nonce set: if more than 200 nonces are held, keep only
`list(s)[-100:]`. -/
def clean_old_nonces (s : List String) : List String :=
  if 200 < s.length then s.drop (s.length - 100) else s

/-- The per-account state touched by a tap request: the `game_users` row,
that account's `game_taps` rows, its rate-limit window and its replay
nonce cache. -/
structure AcctState where
  user : GameUser
  taps : List TapEvent
  window : List Rat
  nonces : List String
deriving DecidableEq, Repr

/-- Result of `POST /api/tap` after authentication and registration:
either a bare error payload, the "No energy" payload (which also carries
the current balances), or the success payload. -/
inductive TapResult where
  | err (msg : String)
  | errNoEnergy (msg : String) (coins energy max_energy : Int)
  | ok (coins energy max_energy : Int)
deriving DecidableEq, Repr

/-- Whether a tap result is the success payload. -/
def TapResult.isOk : TapResult → Bool
  | .ok _ _ _ => true
  | _ => false

/-- `POST /api/tap` (`api_tap`), after auth/registration, for one account:
rate-limit gate, nonce validity and replay gates, nonce recording plus
cache trim, energy gate, then `add_tap`, energy decrement, streak update
and the refreshed response. -/
def api_tap (st : AcctState) (nonce : String) (mono : Rat) (now : Int) :
    TapResult × AcctState :=
  let c := can_tap_now st.window mono
  let st1 := { st with window := c.2 }
  if c.1 = false then (.err "Rate limited", st1)
  else if nonce = "" ∨ 200 < nonce.length then (.err "Bad nonce", st1)
  else if nonce ∈ st1.nonces then (.err "Replay blocked", st1)
  else
    -- `.add(nonce)` then trim; the Python set's enumeration order is
    -- arbitrary and the model uses the list order as one admissible choice
    let st2 := { st1 with nonces := clean_old_nonces (st1.nonces ++ [nonce]) }
    let gu := st2.user
    let e := compute_energy gu now
    if e.1 < 1 then
      (.errNoEnergy "No energy" (orDefault gu.coins 0) e.1
          (orDefault gu.max_energy 500), st2)
    else
      let mult := boost_multiplier gu now
      let delta := 1 * mult
      -- add_tap: append the scoring event, credit coins, stamp last_tap_at
      let taps := st2.taps ++ [⟨now, delta, nonce⟩]
      let gu1 := { gu with coins := some (orDefault gu.coins 0 + delta),
                           last_tap_at := some now }
      -- consume 1 energy and persist the regenerator's checkpoint
      let gu2 := { gu1 with energy := some (e.1 - 1),
                            energy_updated_at := some e.2 }
      let s := streak_update gu true (dateOf now)
      let gu3 := { gu2 with daily_streak := some s.1,
                            last_streak_at := some s.2 }
      let energy2 := (compute_energy gu3 now).1
      (.ok (orDefault gu3.coins 0) energy2 (orDefault gu3.max_energy 500),
        { st2 with user := gu3, taps := taps })

/-- Iterated calls of `can_tap_now` on one account's window, collecting
the accept/reject decision of each call. -/
def tapTrace : List Rat → List Rat → List Bool × List Rat
  | dq, [] => ([], dq)
  | dq, t :: ts =>
    let r := can_tap_now dq t
    let rest := tapTrace r.2 ts
    (r.1 :: rest.1, rest.2)

/-- The process-wide per-account state (`defaultdict` keyed by chat id,
together with each account's row and tap events). -/
def api_tap_global (g : Int → AcctState) (chat_id : Int) (nonce : String)
    (mono : Rat) (now : Int) : TapResult × (Int → AcctState) :=
  let r := api_tap (g chat_id) nonce mono now
  (r.1, fun c => if c = chat_id then r.2 else g c)

/-- A `game_users` row as the leaderboard reads it (`g.coins AS score`),
keyed by chat id. -/
structure AccountRow where
  chat_id : Int
  coins : Int
deriving DecidableEq, Repr

/-- A `game_taps` row, across accounts. -/
structure TapRow where
  chat_id : Int
  ts : Int
  delta : Int
  nonce : String
deriving DecidableEq, Repr

/-- One leaderboard entry: `username`, `chat_id`, `score`. -/
structure LBEntry where
  username : Option String
  chat_id : Int
  score : Int
deriving DecidableEq, Repr

/-- `ORDER BY score DESC`. -/
def scoreDesc (a b : LBEntry) : Prop := b.score ≤ a.score

instance : DecidableRel scoreDesc :=
  fun a b => inferInstanceAs (Decidable (b.score ≤ a.score))

instance : IsTotal LBEntry scoreDesc := ⟨fun a b => le_total b.score a.score⟩

instance : IsTrans LBEntry scoreDesc :=
  ⟨fun _ _ _ h1 h2 => le_trans h2 h1⟩

/-- `leaderboard(range_, limit)`: scope `"all"` ranks `game_users` rows by
their coins balance descending; any other scope sums `game_taps.delta`
over rows with `ts >= now - 1 day` (`"day"`) or `now - 7 days` (otherwise),
grouped by account, descending; the result is truncated to `limit` rows.
`uname` is the `users` table of the `LEFT JOIN` (a map from chat id to
username). -/
def leaderboard (uname : Int → Option String) (gusers : List AccountRow)
    (taps : List TapRow) (range : String) (now : Int) (limit : Nat) :
    List LBEntry :=
  if range = "all" then
    (List.insertionSort scoreDesc
      (gusers.map fun g => ⟨uname g.chat_id, g.chat_id, g.coins⟩)).take limit
  else
    let since := if range = "day" then now - 86400 else now - 7 * 86400
    let recent := taps.filter fun t0 => since ≤ t0.ts
    let ids := (recent.map fun t0 => t0.chat_id).dedup
    let scored := ids.map fun c =>
      (⟨uname c, c,
        ((recent.filter fun t0 => t0.chat_id = c).map fun t0 => t0.delta).sum⟩
        : LBEntry)
    (List.insertionSort scoreDesc scored).take limit

/-- `POST /api/state` (`api_state`), after auth/registration: recomputes
energy and persists the recomputed energy and checkpoint; returns
`(coins, energy, max_energy, daily_streak)` and the updated row. -/
def api_state (gu : GameUser) (now : Int) :
    (Int × Int × Int × Int) × GameUser :=
  let e := compute_energy gu now
  ((orDefault gu.coins 0, e.1, orDefault gu.max_energy 500,
      orDefault gu.daily_streak 0),
    { gu with energy := some e.1, energy_updated_at := some e.2 })

end Tapify

namespace Tapify

/-! ## Helper lemmas -/

theorem orDefault_some (v d : Int) :
    orDefault (some v) d = if v = 0 then d else v := rfl

theorem orDefault_some_eq (v d : Int) (h : v ≠ 0) :
    orDefault (some v) d = v := by
  simp [orDefault, h]

theorem orDefault_some_self (v : Int) : orDefault (some v) 0 = v := by
  by_cases h : v = 0 <;> simp [orDefault, h]

/-- Closed form of `compute_energy` on a row with an explicit checkpoint
and a positive regen rate. -/
theorem compute_energy_eq (gu : GameUser) (now cp rate : Int)
    (hcp : gu.energy_updated_at = some cp)
    (hrate : gu.regen_rate_seconds = some rate) (h1 : 1 ≤ rate) :
    compute_energy gu now =
      (min (orDefault gu.max_energy 500)
        (orDefault gu.energy 0 + (now - cp) / rate),
       if 0 < (now - cp) / rate then cp + ((now - cp) / rate) * rate
       else cp) := by
  have hr0 : rate ≠ 0 := by omega
  have hmax : max 1 rate = rate := by omega
  simp only [compute_energy, hcp, hrate, Option.getD_some,
    orDefault_some_eq rate 3 hr0, hmax]

/-- Closed form of `compute_energy` on a row with an explicit checkpoint,
with no assumption on the regen rate (the divisor is `max 1 rate`, but the
checkpoint advances by `regen * rate` itself, as in the source). -/
theorem compute_energy_eq_general (gu : GameUser) (now cp : Int)
    (hcp : gu.energy_updated_at = some cp) :
    compute_energy gu now =
      (min (orDefault gu.max_energy 500)
        (orDefault gu.energy 0 +
          (now - cp) / max 1 (orDefault gu.regen_rate_seconds 3)),
       if 0 < (now - cp) / max 1 (orDefault gu.regen_rate_seconds 3)
       then cp + ((now - cp) / max 1 (orDefault gu.regen_rate_seconds 3))
              * orDefault gu.regen_rate_seconds 3
       else cp) := by
  simp only [compute_energy, hcp, Option.getD_some]

/-- The first component of `compute_energy` never exceeds the row's
(defaulted) `max_energy`. -/
theorem compute_energy_le_max (gu : GameUser) (now : Int) :
    (compute_energy gu now).1 ≤ orDefault gu.max_energy 500 := by
  simp only [compute_energy]
  exact min_le_left _ _

/-- Idempotence of regeneration: recomputing energy on the row persisted
by `api_state` at the same instant yields the same `(energy, checkpoint)`
pair. -/
theorem compute_energy_idem (gu : GameUser) (now cp rate : Int)
    (hcp : gu.energy_updated_at = some cp) (hnf : cp ≤ now)
    (hrate : gu.regen_rate_seconds = some rate) (h1 : 1 ≤ rate) :
    compute_energy ((api_state gu now).2) now = compute_energy gu now := by
  have key := compute_energy_eq gu now cp rate hcp hrate h1
  have key1 := congrArg Prod.fst key
  have keyc := congrArg Prod.snd key
  have h0 : (0 : Int) ≤ now - cp := by omega
  have hg0 : 0 ≤ (now - cp) / rate := Int.ediv_nonneg h0 (by omega)
  have hrate2 : ((api_state gu now).2).regen_rate_seconds = some rate := hrate
  have henergy : ((api_state gu now).2).energy
      = some (compute_energy gu now).1 := rfl
  have hmax2 : ((api_state gu now).2).max_energy = gu.max_energy := rfl
  have he_le : (compute_energy gu now).1 ≤ orDefault gu.max_energy 500 :=
    compute_energy_le_max gu now
  by_cases hpos : 0 < (now - cp) / rate
  · have hcp2 : ((api_state gu now).2).energy_updated_at
        = some (cp + ((now - cp) / rate) * rate) := by
      show some (compute_energy gu now).2 = _
      rw [keyc]
      simp [hpos]
    have key2 := compute_energy_eq ((api_state gu now).2) now
      (cp + ((now - cp) / rate) * rate) rate hcp2 hrate2 h1
    have hdm := Int.ediv_add_emod (now - cp) rate
    have hrem : now - (cp + ((now - cp) / rate) * rate)
        = (now - cp) % rate := by
      have hc : ((now - cp) / rate) * rate = rate * ((now - cp) / rate) :=
        mul_comm _ _
      linarith [hdm]
    have hz : (now - (cp + ((now - cp) / rate) * rate)) / rate = 0 := by
      rw [hrem]
      exact Int.ediv_eq_zero_of_lt (Int.emod_nonneg _ (by omega))
        (Int.emod_lt_of_pos _ (by omega))
    refine Prod.ext_iff.mpr ⟨?_, ?_⟩
    · have k21 := congrArg Prod.fst key2
      rw [k21]
      show orDefault ((api_state gu now).2).max_energy 500
          ⊓ (orDefault ((api_state gu now).2).energy 0 + _) = _
      rw [hz, hmax2, henergy, orDefault_some_self, add_zero]
      exact min_eq_right he_le
    · have k22 := congrArg Prod.snd key2
      rw [k22]
      show (if 0 < (now - (cp + ((now - cp) / rate) * rate)) / rate
          then _ else _) = _
      rw [hz, if_neg (lt_irrefl 0), keyc]
      show _ = (if 0 < (now - cp) / rate then _ else _)
      rw [if_pos hpos]
  · have hgz : (now - cp) / rate = 0 := by omega
    have hcp2 : ((api_state gu now).2).energy_updated_at = some cp := by
      show some (compute_energy gu now).2 = _
      rw [keyc]
      simp [hpos]
    have key2 := compute_energy_eq ((api_state gu now).2) now cp rate hcp2
      hrate2 h1
    refine Prod.ext_iff.mpr ⟨?_, ?_⟩
    · have k21 := congrArg Prod.fst key2
      rw [k21]
      show orDefault ((api_state gu now).2).max_energy 500
          ⊓ (orDefault ((api_state gu now).2).energy 0 + _) = _
      rw [hgz, hmax2, henergy, orDefault_some_self, add_zero]
      exact min_eq_right he_le
    · have k22 := congrArg Prod.snd key2
      rw [k22]
      show (if 0 < (now - cp) / rate then _ else _) = _
      rw [hgz, if_neg (lt_irrefl 0), keyc]
      show _ = (if 0 < (now - cp) / rate then _ else _)
      rw [hgz, if_neg (lt_irrefl 0)]

/-- C1: Energy regeneration matches its reference definition.  For a row
whose checkpoint `cp` is not in the future and whose regen rate is `rate ≥ 1`,
with `gained = (now - cp) / rate` (floor division): the available energy is
`min(max_energy, stored + gained)`; the new checkpoint is
`cp + gained * rate` when `gained > 0` and `cp` unchanged otherwise, so the
fractional remainder of elapsed time is preserved and a second
regeneration at the same instant (on the row persisted by `api_state`)
returns the identical `(energy, checkpoint)` pair.  Concretely, a row with
`energy = 10`, `max_energy = 500`, `regen_rate_seconds = 3` and checkpoint
`0`, queried at time `7`, yields `(12, 6)` — checkpoint `6`, not `7`. -/
theorem C1_regen_reference (gu : GameUser) (now cp rate : Int)
    (hcp : gu.energy_updated_at = some cp) (hnf : cp ≤ now)
    (hrate : gu.regen_rate_seconds = some rate) (h1 : 1 ≤ rate) :
    (compute_energy gu now).1
        = min (orDefault gu.max_energy 500)
            (orDefault gu.energy 0 + (now - cp) / rate)
      ∧ (compute_energy gu now).2
        = (if 0 < (now - cp) / rate
           then cp + ((now - cp) / rate) * rate else cp)
      ∧ compute_energy ((api_state gu now).2) now = compute_energy gu now
      ∧ compute_energy
          ⟨none, some 10, some 500, some 0, none, none, some 3, none,
            none, none⟩ 7 = (12, 6) := by
  have key := compute_energy_eq gu now cp rate hcp hrate h1
  exact ⟨by rw [key], by rw [key],
    compute_energy_idem gu now cp rate hcp hnf hrate h1, by decide⟩

/-- Witness for C1 at the spec's concrete example. -/
theorem C1_regen_reference_witness :
    compute_energy
        ⟨none, some 10, some 500, some 0, none, none, some 3, none,
          none, none⟩ 7 = (12, 6) :=
  (C1_regen_reference
    ⟨none, some 10, some 500, some 0, none, none, some 3, none, none, none⟩
    7 0 3 rfl (by decide) rfl (by decide)).2.2.2

/-- Counterexample to C2 as stated: `compute_energy` does not clamp a
negative elapsed time.  On a row with stored energy 10 and checkpoint 3,
queried at time 0 (checkpoint in the future), Python's floor division
gives `(-3) // 3 = -1`, so the returned energy is 9, not the stored 10. -/
theorem C2_future_checkpoint_counterexample :
    (⟨none, some 10, some 500, some 3, none, none, some 3, none, none,
        none⟩ : GameUser).energy_updated_at = some 3
      ∧ (0 : Int) < 3
      ∧ orDefault (⟨none, some 10, some 500, some 3, none, none, some 3,
          none, none, none⟩ : GameUser).energy 0 = 10
      ∧ (compute_energy
          ⟨none, some 10, some 500, some 3, none, none, some 3, none,
            none, none⟩ 0).1 = 9
      ∧ (9 : Int) ≠ 10 := by
  decide

/-- C2 (amended): whenever the checkpoint is not in the future — as is
the case for every row the engine itself writes — and the row is
well-formed (stored energy ≥ 0, max energy ≥ 0, regen rate ≥ 1, all after
the source's `or`-defaulting), recomputation keeps
`0 ≤ energy ≤ max_energy`, never drives energy below
`min(max_energy, stored)`, and writes a checkpoint between the old
checkpoint and `now` (so checkpoints never move into the future).  The
code does not, however, clamp elapsed time to `≥ 0`: a checkpoint in the
future regenerates negative time (see the counterexample). -/
theorem C2_energy_bounds (gu : GameUser) (now cp : Int)
    (hcp : gu.energy_updated_at = some cp) (hnf : cp ≤ now)
    (hst : 0 ≤ orDefault gu.energy 0)
    (hmx : 0 ≤ orDefault gu.max_energy 500)
    (hr : 1 ≤ orDefault gu.regen_rate_seconds 3) :
    0 ≤ (compute_energy gu now).1
      ∧ (compute_energy gu now).1 ≤ orDefault gu.max_energy 500
      ∧ min (orDefault gu.max_energy 500) (orDefault gu.energy 0)
          ≤ (compute_energy gu now).1
      ∧ cp ≤ (compute_energy gu now).2
      ∧ (compute_energy gu now).2 ≤ now := by
  have hmaxr : max 1 (orDefault gu.regen_rate_seconds 3)
      = orDefault gu.regen_rate_seconds 3 := max_eq_right hr
  have hce := compute_energy_eq_general gu now cp hcp
  rw [hmaxr] at hce
  have hce1 := congrArg Prod.fst hce
  have hce2 := congrArg Prod.snd hce
  dsimp only at hce1 hce2
  have hg0 : 0 ≤ (now - cp) / orDefault gu.regen_rate_seconds 3 :=
    Int.ediv_nonneg (by omega) (by omega)
  refine ⟨?_, compute_energy_le_max gu now, ?_, ?_, ?_⟩
  · rw [hce1]
    exact le_min hmx (by omega)
  · rw [hce1]
    exact min_le_min le_rfl (by omega)
  · rw [hce2]
    by_cases hp : 0 < (now - cp) / orDefault gu.regen_rate_seconds 3
    · rw [if_pos hp]
      have := mul_nonneg hg0 (show (0:Int) ≤ orDefault gu.regen_rate_seconds 3
        by omega)
      omega
    · rw [if_neg hp]
  · rw [hce2]
    have hdm := Int.ediv_add_emod (now - cp) (orDefault gu.regen_rate_seconds 3)
    have hm0 : 0 ≤ (now - cp) % orDefault gu.regen_rate_seconds 3 :=
      Int.emod_nonneg _ (by omega)
    by_cases hp : 0 < (now - cp) / orDefault gu.regen_rate_seconds 3
    · rw [if_pos hp]
      have hc : ((now - cp) / orDefault gu.regen_rate_seconds 3)
            * orDefault gu.regen_rate_seconds 3
          = orDefault gu.regen_rate_seconds 3
            * ((now - cp) / orDefault gu.regen_rate_seconds 3) :=
        mul_comm _ _
      linarith [hdm]
    · rw [if_neg hp]
      exact hnf

/-- `dropWhile` leaves a replicated list untouched when the predicate
fails on its element. -/
theorem dropWhile_replicate_false (p : Rat → Bool) (a : Rat) (n : Nat)
    (h : p a = false) :
    (List.replicate n a).dropWhile p = List.replicate n a := by
  induction n with
  | zero => rfl
  | succ n ih => simp [List.replicate_succ, List.dropWhile_cons, h]

/-- `dropWhile` empties a replicated list when the predicate holds on its
element. -/
theorem dropWhile_replicate_true (p : Rat → Bool) (a : Rat) (n : Nat)
    (h : p a = true) :
    (List.replicate n a).dropWhile p = [] := by
  induction n with
  | zero => rfl
  | succ n ih => simp [List.replicate_succ, List.dropWhile_cons, h, ih]

/-- A call at the same instant as `k < 20` recorded timestamps is
accepted and appends its timestamp. -/
theorem can_tap_now_replicate_lt (k : Nat) (t : Rat) (h : k < 20) :
    can_tap_now (List.replicate k t) t = (true, List.replicate (k + 1) t) := by
  have hp : (fun t0 => decide (t - t0 > RATE_WINDOW_SEC)) t = false := by
    simp [RATE_WINDOW_SEC]
  have hd := dropWhile_replicate_false
    (fun t0 => decide (t - t0 > RATE_WINDOW_SEC)) t k hp
  simp only [can_tap_now, hd, List.length_replicate, MAX_TAPS_PER_SEC]
  rw [if_neg (by omega), List.replicate_succ' k t]

/-- A call at the same instant as 20 recorded timestamps is rejected and
records nothing. -/
theorem can_tap_now_replicate_full (t : Rat) :
    can_tap_now (List.replicate 20 t) t = (false, List.replicate 20 t) := by
  have hp : (fun t0 => decide (t - t0 > RATE_WINDOW_SEC)) t = false := by
    simp [RATE_WINDOW_SEC]
  have hd := dropWhile_replicate_false
    (fun t0 => decide (t - t0 > RATE_WINDOW_SEC)) t 20 hp
  simp only [can_tap_now, hd, List.length_replicate, MAX_TAPS_PER_SEC]
  rw [if_pos (by omega)]

/-- Accepted burst: from an empty window, `n` same-instant calls with
`k + n ≤ 20` prior same-instant entries are all accepted. -/
theorem tapTrace_replicate (t : Rat) :
    ∀ n k, k + n ≤ 20 →
      tapTrace (List.replicate k t) (List.replicate n t)
        = (List.replicate n true, List.replicate (k + n) t) := by
  intro n
  induction n with
  | zero => intro k _; simp [tapTrace]
  | succ n ih =>
    intro k hk
    rw [List.replicate_succ]
    show ((can_tap_now (List.replicate k t) t).1 ::
        (tapTrace (can_tap_now (List.replicate k t) t).2
          (List.replicate n t)).1,
      (tapTrace (can_tap_now (List.replicate k t) t).2
        (List.replicate n t)).2) = _
    rw [can_tap_now_replicate_lt k t (by omega), ih (k + 1) (by omega),
      show k + 1 + n = k + (n + 1) from by omega]
    rfl

/-- `tapTrace` splits over list append. -/
theorem tapTrace_append (dq : List Rat) (xs ys : List Rat) :
    tapTrace dq (xs ++ ys)
      = ((tapTrace dq xs).1 ++ (tapTrace (tapTrace dq xs).2 ys).1,
         (tapTrace (tapTrace dq xs).2 ys).2) := by
  induction xs generalizing dq with
  | nil => simp [tapTrace]
  | cons x xs ih =>
    show ((can_tap_now dq x).1 ::
        (tapTrace (can_tap_now dq x).2 (xs ++ ys)).1,
      (tapTrace (can_tap_now dq x).2 (xs ++ ys)).2) = _
    rw [ih]
    rfl

/-- C3: the sliding-window rate limit.  (1) From an empty window, 21
calls within the same second are answered by 20 accepts followed by one
reject, and the rejected 21st call's timestamp is not recorded (the
window still holds exactly the 20 accepted timestamps).  (2) After the
1-second window has fully elapsed, a tap is accepted again.  (3) On any
rejected call the window equals the eviction (timestamps older than the
window removed) of the previous window, with nothing recorded.  (4)
`api_tap` maps a rate-limiter rejection to the `Rate limited` error. -/
theorem C3_rate_limit :
    (∀ t : Rat, tapTrace [] (List.replicate 21 t)
        = (List.replicate 20 true ++ [false], List.replicate 20 t))
      ∧ (∀ t tNext : Rat, t + 1 < tNext →
          (can_tap_now (List.replicate 20 t) tNext).1 = true)
      ∧ (∀ (dq : List Rat) (now : Rat), (can_tap_now dq now).1 = false →
          (can_tap_now dq now).2
            = dq.dropWhile (fun t0 => now - t0 > RATE_WINDOW_SEC))
      ∧ (∀ (st : AcctState) (nonce : String) (mono : Rat) (now : Int),
          (can_tap_now st.window mono).1 = false →
          (api_tap st nonce mono now).1 = TapResult.err "Rate limited") := by
  refine ⟨?_, ?_, ?_, ?_⟩
  · intro t
    have h0 := tapTrace_replicate t 20 0 (by omega)
    simp only [List.replicate_zero, Nat.zero_add] at h0
    have h21 : List.replicate 21 t = List.replicate 20 t ++ [t] :=
      List.replicate_succ' 20 t
    rw [h21, tapTrace_append, h0]
    show (List.replicate 20 true ++
        ((can_tap_now (List.replicate 20 t) t).1 ::
          (tapTrace (can_tap_now (List.replicate 20 t) t).2 []).1),
      (tapTrace (can_tap_now (List.replicate 20 t) t).2 []).2) = _
    rw [can_tap_now_replicate_full t]
    rfl
  · intro t tNext h
    have hp : (fun t0 => decide (tNext - t0 > RATE_WINDOW_SEC)) t = true := by
      simp only [RATE_WINDOW_SEC, decide_eq_true_eq]
      linarith
    have hd := dropWhile_replicate_true
      (fun t0 => decide (tNext - t0 > RATE_WINDOW_SEC)) t 20 hp
    simp only [can_tap_now, hd, List.length_nil, MAX_TAPS_PER_SEC]
    rw [if_neg (by omega)]
  · intro dq now h
    simp only [can_tap_now, MAX_TAPS_PER_SEC] at h ⊢
    by_cases hlen : 20 ≤ (dq.dropWhile
        (fun t0 => decide (now - t0 > RATE_WINDOW_SEC))).length
    · rw [if_pos hlen]
    · rw [if_neg hlen] at h
      simp at h
  · intro st nonce mono now h
    simp [api_tap, h]

/-- Witness for C3 at `t = 0`, next tap at `t = 2`. -/
theorem C3_rate_limit_witness :
    tapTrace [] (List.replicate 21 (0 : Rat))
        = (List.replicate 20 true ++ [false], List.replicate 20 0)
      ∧ (can_tap_now (List.replicate 20 (0 : Rat)) 2).1 = true :=
  ⟨C3_rate_limit.1 0, C3_rate_limit.2.1 0 2 (by norm_num)⟩

/-- On a cache of at most 200 entries the trim is the identity,
whatever enumeration order produced the list. -/
theorem clean_old_nonces_of_le (l : List String) (h : l.length ≤ 200) :
    clean_old_nonces l = l := by
  unfold clean_old_nonces
  rw [if_neg (by omega)]

/-- The row written by an accepted tap: coins credited, `last_tap_at`
stamped, one energy consumed from the recomputed value, the regenerator's
checkpoint persisted, and the streak fields updated. -/
def tappedUser (gu : GameUser) (now : Int) : GameUser :=
  { gu with
    coins := some (orDefault gu.coins 0 + 1 * boost_multiplier gu now),
    last_tap_at := some now,
    energy := some ((compute_energy gu now).1 - 1),
    energy_updated_at := some ((compute_energy gu now).2),
    daily_streak := some ((streak_update gu true (dateOf now)).1),
    last_streak_at := some ((streak_update gu true (dateOf now)).2) }

/-- Closed form of `api_tap` on the fully accepted path. -/
theorem api_tap_accept (st : AcctState) (nonce : String) (mono : Rat)
    (now : Int)
    (hrl : (can_tap_now st.window mono).1 = true)
    (hv : ¬(nonce = "" ∨ 200 < nonce.length))
    (hfresh : nonce ∉ st.nonces)
    (he : ¬((compute_energy st.user now).1 < 1)) :
    api_tap st nonce mono now =
      (TapResult.ok
          (orDefault st.user.coins 0 + 1 * boost_multiplier st.user now)
          ((compute_energy (tappedUser st.user now) now).1)
          (orDefault st.user.max_energy 500),
        { user := tappedUser st.user now,
          taps := st.taps ++ [⟨now, 1 * boost_multiplier st.user now, nonce⟩],
          window := (can_tap_now st.window mono).2,
          nonces := clean_old_nonces (st.nonces ++ [nonce]) }) := by
  simp only [api_tap, hrl, hv, hfresh, he, tappedUser]
  simp [orDefault_some_self]

/-- C4: nonce validation in `api_tap`.  With the rate limiter passing:
an empty nonce, or one longer than 200 characters, is rejected with
`Bad nonce`; a nonce already in the account's replay cache is rejected
with `Replay blocked`; a tap for one account leaves every other account's
state (in particular its nonce cache) untouched, so the same nonce string
submitted by a different account is accepted; and an accepted nonce is
recorded in the account's cache: whenever the insertion does not push the
cache past 200 entries the trim is a no-op, so the nonce is present
afterwards — and the final conjunct shows this holds under *every*
enumeration order of the updated set, since Python enumerates the set in
an arbitrary order when trimming.  (Retention across a trim that does
fire is order-dependent and not guaranteed — see the C10 theorem.) -/
theorem C4_nonce_validation :
    (∀ (st : AcctState) (mono : Rat) (now : Int),
        (can_tap_now st.window mono).1 = true →
        (api_tap st "" mono now).1 = TapResult.err "Bad nonce")
      ∧ (∀ (st : AcctState) (nonce : String) (mono : Rat) (now : Int),
          (can_tap_now st.window mono).1 = true →
          200 < nonce.length →
          (api_tap st nonce mono now).1 = TapResult.err "Bad nonce")
      ∧ (∀ (st : AcctState) (nonce : String) (mono : Rat) (now : Int),
          (can_tap_now st.window mono).1 = true →
          ¬(nonce = "" ∨ 200 < nonce.length) → nonce ∈ st.nonces →
          (api_tap st nonce mono now).1 = TapResult.err "Replay blocked")
      ∧ (∀ (g : Int → AcctState) (a b : Int) (nonce : String) (mono : Rat)
            (now : Int), a ≠ b →
          (api_tap_global g a nonce mono now).2 b = g b)
      ∧ (∀ (st : AcctState) (nonce : String) (mono : Rat) (now : Int),
          (can_tap_now st.window mono).1 = true →
          ¬(nonce = "" ∨ 200 < nonce.length) → nonce ∉ st.nonces →
          1 ≤ (compute_energy st.user now).1 →
          (api_tap st nonce mono now).1.isOk = true)
      ∧ (∀ (st : AcctState) (nonce : String) (mono : Rat) (now : Int),
          (can_tap_now st.window mono).1 = true →
          ¬(nonce = "" ∨ 200 < nonce.length) → nonce ∉ st.nonces →
          1 ≤ (compute_energy st.user now).1 →
          st.nonces.length ≤ 199 →
          nonce ∈ (api_tap st nonce mono now).2.nonces)
      ∧ (∀ (cache enum : List String) (nonce : String),
          enum.Perm (cache ++ [nonce]) → cache.length ≤ 199 →
          nonce ∈ clean_old_nonces enum) := by
  refine ⟨?_, ?_, ?_, ?_, ?_, ?_, ?_⟩
  · intro st mono now hrl
    simp [api_tap, hrl]
  · intro st nonce mono now hrl hlong
    simp [api_tap, hrl, hlong]
  · intro st nonce mono now hrl hv hmem
    simp [api_tap, hrl, hv, hmem]
  · intro g a b nonce mono now hne
    simp only [api_tap_global]
    rw [if_neg (by omega)]
  · intro st nonce mono now hrl hv hfresh hel
    rw [api_tap_accept st nonce mono now hrl hv hfresh (by omega)]
    rfl
  · intro st nonce mono now hrl hv hfresh hel hb
    rw [api_tap_accept st nonce mono now hrl hv hfresh (by omega)]
    show nonce ∈ clean_old_nonces (st.nonces ++ [nonce])
    rw [clean_old_nonces_of_le _ (by
      rw [List.length_append]
      simp
      omega)]
    exact List.mem_append_right _ (List.mem_singleton_self nonce)
  · intro cache enum nonce hperm hlen
    have hl : enum.length ≤ 200 := by
      rw [hperm.length_eq, List.length_append]
      simp
      omega
    rw [clean_old_nonces_of_le enum hl]
    exact hperm.mem_iff.mpr
      (List.mem_append_right _ (List.mem_singleton_self nonce))

/-- Witness for C4: a fresh 1-character nonce, empty window and cache,
stored energy 10. -/
theorem C4_nonce_validation_witness :
    (api_tap
        ⟨⟨none, some 10, some 500, some 0, none, none, some 3, none, none,
            none⟩, [], [], ["a"]⟩ "a" 0 7).1 = TapResult.err "Replay blocked"
      ∧ (api_tap
          ⟨⟨none, some 10, some 500, some 0, none, none, some 3, none, none,
              none⟩, [], [], []⟩ "a" 0 7).1.isOk = true
      ∧ "a" ∈ (api_tap
          ⟨⟨none, some 10, some 500, some 0, none, none, some 3, none, none,
              none⟩, [], [], []⟩ "a" 0 7).2.nonces :=
  ⟨C4_nonce_validation.2.2.1
      ⟨⟨none, some 10, some 500, some 0, none, none, some 3, none, none,
          none⟩, [], [], ["a"]⟩ "a" 0 7 (by decide) (by decide) (by decide),
    C4_nonce_validation.2.2.2.2.1
      ⟨⟨none, some 10, some 500, some 0, none, none, some 3, none, none,
          none⟩, [], [], []⟩ "a" 0 7 (by decide) (by decide) (by decide)
      (by decide),
    C4_nonce_validation.2.2.2.2.2.1
      ⟨⟨none, some 10, some 500, some 0, none, none, some 3, none, none,
          none⟩, [], [], []⟩ "a" 0 7 (by decide) (by decide) (by decide)
      (by decide) (by decide)⟩

/-- C5: structured rejections mutate no game state.  (1) Whenever a tap
request does not return the success payload — i.e. on the `Rate limited`,
`Bad nonce`, `Replay blocked` and `No energy` paths — the account row and
its scoring events are unchanged.  (2) A tap on an account whose
recomputed energy is `< 1` is rejected with the `No energy` payload
carrying the account's current coins, energy and max energy for client
display.  (3) Every failing `activate_boost` call — `Not enough coins`
for each of the three kinds, and `Unknown boost` — returns the row
unchanged. -/
theorem C5_rejection_no_mutation :
    (∀ (st : AcctState) (nonce : String) (mono : Rat) (now : Int),
        (api_tap st nonce mono now).1.isOk = false →
        (api_tap st nonce mono now).2.user = st.user
          ∧ (api_tap st nonce mono now).2.taps = st.taps)
      ∧ (∀ (st : AcctState) (nonce : String) (mono : Rat) (now : Int),
          (can_tap_now st.window mono).1 = true →
          ¬(nonce = "" ∨ 200 < nonce.length) → nonce ∉ st.nonces →
          (compute_energy st.user now).1 < 1 →
          (api_tap st nonce mono now).1
            = TapResult.errNoEnergy "No energy" (orDefault st.user.coins 0)
                ((compute_energy st.user now).1)
                (orDefault st.user.max_energy 500))
      ∧ (∀ (gu : GameUser) (boost : String) (now : Int),
          (activate_boost gu boost now).1.1 = false →
          (activate_boost gu boost now).2 = gu)
      ∧ (∀ (gu : GameUser) (now : Int), orDefault gu.coins 0 < 1000 →
          activate_boost gu "multitap" now = ((false, "Not enough coins"), gu))
      ∧ (∀ (gu : GameUser) (now : Int), orDefault gu.coins 0 < 3000 →
          activate_boost gu "autotap" now = ((false, "Not enough coins"), gu))
      ∧ (∀ (gu : GameUser) (now : Int), orDefault gu.coins 0 < 2500 →
          activate_boost gu "maxenergy" now = ((false, "Not enough coins"), gu))
      ∧ (∀ (gu : GameUser) (boost : String) (now : Int),
          boost ≠ "multitap" → boost ≠ "autotap" → boost ≠ "maxenergy" →
          activate_boost gu boost now = ((false, "Unknown boost"), gu)) := by
  refine ⟨?_, ?_, ?_, ?_, ?_, ?_, ?_⟩
  · intro st nonce mono now hok
    by_cases h1 : (can_tap_now st.window mono).1 = false
    · constructor <;> simp [api_tap, h1]
    · have h1' : (can_tap_now st.window mono).1 = true := by
        revert h1
        cases (can_tap_now st.window mono).1 <;> simp
      by_cases h2 : nonce = "" ∨ 200 < nonce.length
      · constructor <;> simp [api_tap, h1', h2]
      · by_cases h3 : nonce ∈ st.nonces
        · constructor <;> simp [api_tap, h1', h2, h3]
        · by_cases h4 : (compute_energy st.user now).1 < 1
          · constructor <;> simp [api_tap, h1', h2, h3, h4]
          · rw [api_tap_accept st nonce mono now h1' h2 h3 h4] at hok
            simp [TapResult.isOk] at hok
  · intro st nonce mono now hrl hv hfresh he
    simp [api_tap, hrl, hv, hfresh, he]
  · intro gu boost now hfail
    by_cases hm : boost = "multitap"
    · by_cases hc : orDefault gu.coins 0 < 1000
      · simp [activate_boost, hm, hc]
      · simp [activate_boost, hm, hc] at hfail
    · by_cases ha : boost = "autotap"
      · by_cases hc : orDefault gu.coins 0 < 3000
        · simp [activate_boost, hm, ha, hc]
        · simp [activate_boost, hm, ha, hc] at hfail
      · by_cases hx : boost = "maxenergy"
        · by_cases hc : orDefault gu.coins 0 < 2500
          · simp [activate_boost, hm, ha, hx, hc]
          · simp [activate_boost, hm, ha, hx, hc] at hfail
        · simp [activate_boost, hm, ha, hx]
  · intro gu now hc
    simp [activate_boost, hc]
  · intro gu now hc
    simp [activate_boost, hc]
  · intro gu now hc
    simp [activate_boost, hc]
  · intro gu boost now hm ha hx
    simp [activate_boost, hm, ha, hx]

/-- Witness for C5: a zero-energy account rejected with `No energy`, and
a zero-coin account denied each boost, both without mutation. -/
theorem C5_rejection_no_mutation_witness :
    (api_tap
        ⟨⟨none, some 0, some 500, some 7, none, none, some 3, none, none,
            none⟩, [], [], []⟩ "a" 0 7).1
      = TapResult.errNoEnergy "No energy" 0 0 500
      ∧ activate_boost
          ⟨some 5, none, none, none, none, none, none, none, none, none⟩
          "multitap" 0 = ((false, "Not enough coins"),
            ⟨some 5, none, none, none, none, none, none, none, none, none⟩)
      ∧ activate_boost
          ⟨some 5, none, none, none, none, none, none, none, none, none⟩
          "petboost" 0 = ((false, "Unknown boost"),
            ⟨some 5, none, none, none, none, none, none, none, none, none⟩) :=
  ⟨C5_rejection_no_mutation.2.1
      ⟨⟨none, some 0, some 500, some 7, none, none, some 3, none, none,
          none⟩, [], [], []⟩ "a" 0 7 (by decide) (by decide) (by decide)
      (by decide),
    C5_rejection_no_mutation.2.2.2.1
      ⟨some 5, none, none, none, none, none, none, none, none, none⟩ 0
      (by decide),
    C5_rejection_no_mutation.2.2.2.2.2.2
      ⟨some 5, none, none, none, none, none, none, none, none, none⟩
      "petboost" 0 (by decide) (by decide) (by decide)⟩

/-- C6: the effective score multiplier.  It is always 1 or 2 (so an
integer ≥ 1); each of `multitap` and `autotap` active (expiry strictly
after `now`) forces it to 2; both active simultaneously still give 2 —
the maximum, not the product; with no active boost (absent or expired
expiries) it is 1; and an accepted tap's scoring event carries
`delta = 1 * multiplier`. -/
theorem C6_boost_multiplier :
    (∀ (gu : GameUser) (now : Int),
        boost_multiplier gu now = 1 ∨ boost_multiplier gu now = 2)
      ∧ (∀ (gu : GameUser) (now : Int), 1 ≤ boost_multiplier gu now)
      ∧ (∀ (gu : GameUser) (now u : Int), gu.multitap_until = some u →
          now < u → boost_multiplier gu now = 2)
      ∧ (∀ (gu : GameUser) (now v : Int), gu.autotap_until = some v →
          now < v → boost_multiplier gu now = 2)
      ∧ (∀ (gu : GameUser) (now u v : Int), gu.multitap_until = some u →
          now < u → gu.autotap_until = some v → now < v →
          boost_multiplier gu now = 2)
      ∧ (∀ (gu : GameUser) (now : Int),
          (∀ u, gu.multitap_until = some u → u ≤ now) →
          (∀ v, gu.autotap_until = some v → v ≤ now) →
          boost_multiplier gu now = 1)
      ∧ (∀ (st : AcctState) (nonce : String) (mono : Rat) (now : Int),
          (can_tap_now st.window mono).1 = true →
          ¬(nonce = "" ∨ 200 < nonce.length) → nonce ∉ st.nonces →
          ¬((compute_energy st.user now).1 < 1) →
          (api_tap st nonce mono now).2.taps
            = st.taps ++ [⟨now, 1 * boost_multiplier st.user now, nonce⟩]) := by
  refine ⟨?_, ?_, ?_, ?_, ?_, ?_, ?_⟩
  · intro gu now
    simp only [boost_multiplier]
    cases gu.multitap_until <;> cases gu.autotap_until <;>
      simp <;> (try split_ifs) <;> first | omega | decide
  · intro gu now
    simp only [boost_multiplier]
    cases gu.multitap_until <;> cases gu.autotap_until <;>
      simp <;> (try split_ifs) <;> first | omega | decide
  · intro gu now u hm hu
    simp only [boost_multiplier, hm, gt_iff_lt, if_pos hu]
    cases gu.autotap_until <;> simp <;> (try split_ifs) <;>
      first | omega | decide
  · intro gu now v ha hv
    simp only [boost_multiplier, ha, gt_iff_lt, if_pos hv]
    cases gu.multitap_until <;> simp <;> (try split_ifs) <;>
      first | omega | decide
  · intro gu now u v hm hu ha hv
    simp only [boost_multiplier, hm, ha, gt_iff_lt, if_pos hu, if_pos hv]
    simp
  · intro gu now hm ha
    simp only [boost_multiplier]
    cases hmu : gu.multitap_until with
    | none =>
      cases hau : gu.autotap_until with
      | none => rfl
      | some v =>
        have := ha v hau
        simp [show ¬(v > now) from by omega]
    | some u =>
      have hu := hm u hmu
      cases hau : gu.autotap_until with
      | none => simp [show ¬(u > now) from by omega]
      | some v =>
        have := ha v hau
        simp [show ¬(u > now) from by omega, show ¬(v > now) from by omega]
  · intro st nonce mono now hrl hv hfresh he
    rw [api_tap_accept st nonce mono now hrl hv hfresh he]

/-- Witness for C6: both boosts active until 60 at time 0 give
multiplier 2; both expired at time 0 give 1. -/
theorem C6_boost_multiplier_witness :
    boost_multiplier
        ⟨none, none, none, none, some 60, some 60, none, none, none, none⟩
        0 = 2
      ∧ boost_multiplier
          ⟨none, none, none, none, some 0, some 0, none, none, none, none⟩
          0 = 1 :=
  ⟨C6_boost_multiplier.2.2.2.2.1
      ⟨none, none, none, none, some 60, some 60, none, none, none, none⟩
      0 60 60 rfl (by decide) rfl (by decide),
    C6_boost_multiplier.2.2.2.2.2.1
      ⟨none, none, none, none, some 0, some 0, none, none, none, none⟩ 0
      (fun u hu => by
        injection hu with hu
        omega)
      (fun v hv => by
        injection hv with hv
        omega)⟩

/-- C7 (failing input): the `maxenergy` upgrade — commented `# one-time
upgrade` in the source — is repeatable.  An account with 5000 coins and
`max_energy = 500` activates it twice; both calls succeed, each charges
2500 coins, and `max_energy` rises to 600 and then to 700: the second
activation grants a further increase, contrary to the claim. -/
theorem C7_max_energy_upgrade_repeats :
    activate_boost
        ⟨some 5000, none, some 500, none, none, none, none, none, none,
          none⟩ "maxenergy" 0
      = ((true, "Max energy increased by +100!"),
         ⟨some 2500, none, some 600, none, none, none, none, none, none,
           none⟩)
      ∧ activate_boost
          ⟨some 2500, none, some 600, none, none, none, none, none, none,
            none⟩ "maxenergy" 0
        = ((true, "Max energy increased by +100!"),
           ⟨some 0, none, some 700, none, none, none, none, none, none,
             none⟩) := by
  decide

/-- C8: streak update on a tap.  If the stored streak date is yesterday
the streak increments; if it is today the streak is unchanged (idempotent
on repeated same-day taps); on a gap of two or more days, or with no
prior date, it resets to 1; the new streak date is today whenever a tap
occurred; with no tap the streak is unchanged; and an accepted `api_tap`
persists exactly `streak_update(gu, tapped_today=True)` into the row. -/
theorem C8_streak_update :
    (∀ (gu : GameUser) (today : Int), gu.last_streak_at = some (today - 1) →
        streak_update gu true today = (orDefault gu.daily_streak 0 + 1, today))
      ∧ (∀ (gu : GameUser) (today : Int), gu.last_streak_at = some today →
          streak_update gu true today = (orDefault gu.daily_streak 0, today))
      ∧ (∀ (gu : GameUser) (today d : Int), gu.last_streak_at = some d →
          d ≤ today - 2 → streak_update gu true today = (1, today))
      ∧ (∀ (gu : GameUser) (today : Int), gu.last_streak_at = none →
          streak_update gu true today = (1, today))
      ∧ (∀ (gu : GameUser) (today : Int),
          (streak_update gu true today).2 = today)
      ∧ (∀ (gu : GameUser) (today : Int),
          (streak_update gu false today).1 = orDefault gu.daily_streak 0)
      ∧ (∀ (st : AcctState) (nonce : String) (mono : Rat) (now : Int),
          (can_tap_now st.window mono).1 = true →
          ¬(nonce = "" ∨ 200 < nonce.length) → nonce ∉ st.nonces →
          ¬((compute_energy st.user now).1 < 1) →
          (api_tap st nonce mono now).2.user.daily_streak
              = some ((streak_update st.user true (dateOf now)).1)
            ∧ (api_tap st nonce mono now).2.user.last_streak_at
              = some ((streak_update st.user true (dateOf now)).2)) := by
  refine ⟨?_, ?_, ?_, ?_, ?_, ?_, ?_⟩
  · intro gu today h
    simp [streak_update, h]
  · intro gu today h
    simp [streak_update, h, show ¬(today = today - 1) from by omega]
  · intro gu today d h hgap
    simp [streak_update, h, show ¬(d = today - 1) from by omega,
      show ¬(d = today) from by omega]
  · intro gu today h
    simp [streak_update, h]
  · intro gu today
    simp only [streak_update]
    split_ifs with h <;> first | rfl | simp at h
  · intro gu today
    simp [streak_update]
  · intro st nonce mono now hrl hv hfresh he
    rw [api_tap_accept st nonce mono now hrl hv hfresh he]
    exact ⟨rfl, rfl⟩

/-- Witness for C8: streak 4 with date 9 tapped on day 10 increments to
5; a second tap on day 10 leaves 4 unchanged; a tap on day 10 with date 7
(three days prior) resets to 1. -/
theorem C8_streak_update_witness :
    streak_update
        ⟨none, none, none, none, none, none, none, none, some 4, some 9⟩
        true 10 = (5, 10)
      ∧ streak_update
          ⟨none, none, none, none, none, none, none, none, some 4, some 10⟩
          true 10 = (4, 10)
      ∧ streak_update
          ⟨none, none, none, none, none, none, none, none, some 4, some 7⟩
          true 10 = (1, 10) :=
  ⟨C8_streak_update.1
      ⟨none, none, none, none, none, none, none, none, some 4, some 9⟩ 10
      rfl,
    C8_streak_update.2.1
      ⟨none, none, none, none, none, none, none, none, some 4, some 10⟩ 10
      rfl,
    C8_streak_update.2.2.1
      ⟨none, none, none, none, none, none, none, none, some 4, some 7⟩ 10 7
      rfl (by decide)⟩

/-- C9: leaderboard aggregation.  The result is bounded by `limit` and
sorted by score descending for every scope.  In scope `"day"` every
returned entry's score is the sum of that account's `ScoringEvent` deltas
with `ts ≥ now - 1 day`; prepending an event older than the window leaves
the `"day"` (resp. `"week"`) leaderboard unchanged.  Scope `"all"`
ignores the events entirely (it ranks current coins balances): its result
is invariant under any change of events or query time, and each of its
entries carries some account's coins balance as score.  An accepted tap
credits its delta into the account's coins balance — the quantity `"all"`
ranks — regardless of when the event occurred. -/
theorem C9_leaderboard :
    (∀ (uname : Int → Option String) (gusers : List AccountRow)
        (taps : List TapRow) (range : String) (now : Int) (limit : Nat),
        (leaderboard uname gusers taps range now limit).length ≤ limit)
      ∧ (∀ (uname : Int → Option String) (gusers : List AccountRow)
          (taps : List TapRow) (range : String) (now : Int) (limit : Nat),
          List.Sorted scoreDesc (leaderboard uname gusers taps range now limit))
      ∧ (∀ (uname : Int → Option String) (gusers : List AccountRow)
          (taps : List TapRow) (now : Int) (limit : Nat) (e : LBEntry),
          e ∈ leaderboard uname gusers taps "day" now limit →
          e.score = ((taps.filter fun t0 =>
              t0.chat_id = e.chat_id ∧ now - 86400 ≤ t0.ts).map
                fun t0 => t0.delta).sum)
      ∧ (∀ (uname : Int → Option String) (gusers : List AccountRow)
          (taps : List TapRow) (now : Int) (limit : Nat) (t : TapRow),
          t.ts < now - 86400 →
          leaderboard uname gusers (t :: taps) "day" now limit
            = leaderboard uname gusers taps "day" now limit)
      ∧ (∀ (uname : Int → Option String) (gusers : List AccountRow)
          (taps : List TapRow) (now : Int) (limit : Nat) (t : TapRow),
          t.ts < now - 7 * 86400 →
          leaderboard uname gusers (t :: taps) "week" now limit
            = leaderboard uname gusers taps "week" now limit)
      ∧ (∀ (uname : Int → Option String) (gusers : List AccountRow)
          (taps taps2 : List TapRow) (now now2 : Int) (limit : Nat),
          leaderboard uname gusers taps "all" now limit
            = leaderboard uname gusers taps2 "all" now2 limit)
      ∧ (∀ (uname : Int → Option String) (gusers : List AccountRow)
          (taps : List TapRow) (now : Int) (limit : Nat) (e : LBEntry),
          e ∈ leaderboard uname gusers taps "all" now limit →
          ∃ g ∈ gusers, e = ⟨uname g.chat_id, g.chat_id, g.coins⟩)
      ∧ (∀ (st : AcctState) (nonce : String) (mono : Rat) (now : Int),
          (can_tap_now st.window mono).1 = true →
          ¬(nonce = "" ∨ 200 < nonce.length) → nonce ∉ st.nonces →
          ¬((compute_energy st.user now).1 < 1) →
          (api_tap st nonce mono now).2.user.coins
            = some (orDefault st.user.coins 0
                + 1 * boost_multiplier st.user now)) := by
  have hcoins : ∀ (gu : GameUser) (now : Int),
      (tappedUser gu now).coins
        = some (orDefault gu.coins 0 + 1 * boost_multiplier gu now) :=
    fun _ _ => rfl
  refine ⟨?_, ?_, ?_, ?_, ?_, ?_, ?_, ?_⟩
  · intro uname gusers taps range now limit
    simp only [leaderboard]
    split_ifs <;> exact List.length_take_le _ _
  · intro uname gusers taps range now limit
    simp only [leaderboard]
    split_ifs <;>
      exact List.Pairwise.sublist (List.take_sublist _ _)
        (List.sorted_insertionSort scoreDesc _)
  · intro uname gusers taps now limit e he
    simp only [leaderboard, if_neg (show ¬("day" = "all") from by decide),
      if_pos (show ("day" = "day") from rfl), if_true] at he
    have he2 := (List.perm_insertionSort scoreDesc _).mem_iff.mp
      (List.take_subset _ _ he)
    obtain ⟨c, hc, hce⟩ := List.mem_map.mp he2
    subst hce
    simp only [List.filter_filter, Bool.decide_and, if_true]
  · intro uname gusers taps now limit t ht
    simp only [leaderboard, if_neg (show ¬("day" = "all") from by decide),
      if_pos (show ("day" = "day") from rfl), if_true]
    rw [List.filter_cons_of_neg (by
      simp only [if_true, decide_eq_true_eq]
      omega)]
  · intro uname gusers taps now limit t ht
    simp only [leaderboard, if_neg (show ¬("week" = "all") from by decide),
      if_neg (show ¬("week" = "day") from by decide)]
    rw [List.filter_cons_of_neg (by
      simp only [decide_eq_true_eq]
      omega)]
  · intro uname gusers taps taps2 now now2 limit
    simp only [leaderboard, if_pos (show ("all" = "all") from rfl), if_true]
  · intro uname gusers taps now limit e he
    simp only [leaderboard, if_pos (show ("all" = "all") from rfl),
      if_true] at he
    have he2 := (List.perm_insertionSort scoreDesc _).mem_iff.mp
      (List.take_subset _ _ he)
    obtain ⟨g, hg, hge⟩ := List.mem_map.mp he2
    exact ⟨g, hg, hge.symm⟩
  · intro st nonce mono now hrl hv hfresh he
    rw [api_tap_accept st nonce mono now hrl hv hfresh he]
    exact hcoins st.user now

/-- Witness for C9: the `"all"` length bound at `limit = 50`, and the
`"day"` invariance under an event two days old. -/
theorem C9_leaderboard_witness :
    (leaderboard (fun _ => none) [⟨1, 7⟩] [] "all" 0 50).length ≤ 50
      ∧ leaderboard (fun _ => none) [⟨1, 7⟩] [⟨1, 0, 5, "n"⟩] "day"
          (2 * 86400) 50
        = leaderboard (fun _ => none) [⟨1, 7⟩] [] "day" (2 * 86400) 50 :=
  ⟨C9_leaderboard.1 (fun _ => none) [⟨1, 7⟩] [] "all" 0 50,
    C9_leaderboard.2.2.2.1 (fun _ => none) [⟨1, 7⟩] [] (2 * 86400) 50
      ⟨1, 0, 5, "n"⟩ (by decide)⟩

set_option maxRecDepth 8000

/-- Trimming the nonce cache always leaves at most 200 entries. -/
theorem clean_old_nonces_length_le (l : List String) :
    (clean_old_nonces l).length ≤ 200 := by
  unfold clean_old_nonces
  split_ifs with h
  · rw [List.length_drop]
    omega
  · omega

/-- C10: the replay-nonce cache bound.  Trimming yields at most 200
entries, so after any tap request the cache of an account that held at
most 200 nonces still holds at most 200; an insertion that pushes the
enumerated cache above 200 entries resets it to exactly 100 retained
entries, all drawn from the cache; a cache of at most 200 entries is
left untouched (eviction is triggered by size only — the function has no
time input); and the retained subset depends on the set's arbitrary
enumeration order: two permutations of the same 201-nonce cache retain
different entries, one of them evicting the nonce `"a"` that the other
keeps, so no recency guarantee holds. -/
theorem C10_nonce_cache_bound :
    (∀ l : List String, (clean_old_nonces l).length ≤ 200)
      ∧ (∀ l : List String, 200 < l.length →
          (clean_old_nonces l).length = 100
            ∧ ∀ x ∈ clean_old_nonces l, x ∈ l)
      ∧ (∀ l : List String, l.length ≤ 200 → clean_old_nonces l = l)
      ∧ (∀ (st : AcctState) (nonce : String) (mono : Rat) (now : Int),
          st.nonces.length ≤ 200 →
          (api_tap st nonce mono now).2.nonces.length ≤ 200)
      ∧ (∃ l1 l2 : List String, l1.Perm l2
          ∧ "a" ∈ l1 ∧ "a" ∉ clean_old_nonces l1
          ∧ "a" ∈ clean_old_nonces l2) := by
  refine ⟨clean_old_nonces_length_le, ?_, ?_, ?_, ?_⟩
  · intro l h
    constructor
    · unfold clean_old_nonces
      rw [if_pos h, List.length_drop]
      omega
    · intro x hx
      unfold clean_old_nonces at hx
      rw [if_pos h] at hx
      exact List.drop_subset _ _ hx
  · intro l h
    unfold clean_old_nonces
    rw [if_neg (by omega)]
  · intro st nonce mono now hb
    by_cases h1 : (can_tap_now st.window mono).1 = false
    · simp [api_tap, h1, hb]
    · have h1' : (can_tap_now st.window mono).1 = true := by
        revert h1
        cases (can_tap_now st.window mono).1 <;> simp
      by_cases h2 : nonce = "" ∨ 200 < nonce.length
      · simp [api_tap, h1', h2, hb]
      · by_cases h3 : nonce ∈ st.nonces
        · simp [api_tap, h1', h2, h3, hb]
        · by_cases h4 : (compute_energy st.user now).1 < 1
          · simp only [api_tap, h1', h2, h3, h4]
            simp [clean_old_nonces_length_le]
          · rw [api_tap_accept st nonce mono now h1' h2 h3 h4]
            exact clean_old_nonces_length_le _
  · refine ⟨"a" :: List.replicate 200 "b",
      List.replicate 200 "b" ++ ["a"], ?_, List.mem_cons_self _ _, ?_, ?_⟩
    · exact @List.perm_append_comm String ["a"] (List.replicate 200 "b")
    · have hc : clean_old_nonces ("a" :: List.replicate 200 "b")
          = List.replicate 100 "b" := by
        unfold clean_old_nonces
        rw [if_pos (by simp)]
        simp
      rw [hc]
      simp [List.mem_replicate]
    · have hc : clean_old_nonces (List.replicate 200 "b" ++ ["a"])
          = List.replicate 99 "b" ++ ["a"] := by
        unfold clean_old_nonces
        rw [if_pos (by simp)]
        rw [show (List.replicate 200 "b" ++ ["a"]).length - 100 = 101 by simp]
        rw [List.drop_append_of_le_length (by simp)]
        simp
      rw [hc]
      exact List.mem_append_right _ (List.mem_singleton_self "a")

/-- Witness for C10: a 1-entry cache is untouched; a 201-entry cache is
reset to 100 entries. -/
theorem C10_nonce_cache_bound_witness :
    clean_old_nonces ["a"] = ["a"]
      ∧ (clean_old_nonces (List.replicate 201 "b")).length = 100 :=
  ⟨C10_nonce_cache_bound.2.2.1 ["a"] (by simp),
    (C10_nonce_cache_bound.2.1 (List.replicate 201 "b") (by simp)).1⟩

/-- Witness for C2 (amended) at a concrete well-formed row. -/
theorem C2_energy_bounds_witness :
    0 ≤ (compute_energy
          ⟨none, some 10, some 500, some 0, none, none, some 3, none,
            none, none⟩ 7).1
      ∧ (compute_energy
          ⟨none, some 10, some 500, some 0, none, none, some 3, none,
            none, none⟩ 7).1 ≤ 500
      ∧ min 500 10 ≤ (compute_energy
          ⟨none, some 10, some 500, some 0, none, none, some 3, none,
            none, none⟩ 7).1
      ∧ (0 : Int) ≤ (compute_energy
          ⟨none, some 10, some 500, some 0, none, none, some 3, none,
            none, none⟩ 7).2
      ∧ (compute_energy
          ⟨none, some 10, some 500, some 0, none, none, some 3, none,
            none, none⟩ 7).2 ≤ 7 :=
  C2_energy_bounds
    ⟨none, some 10, some 500, some 0, none, none, some 3, none, none, none⟩
    7 0 rfl (by decide) (by decide) (by decide) (by decide)

end Tapify
